import Mathlib

/-!
Verification development for the pilang interactive data-exploration shell.

The Rust sources are embedded shallowly:
* `src/error.rs`   → `Err`
* `src/data.rs`    → `LList`, `LDict` (lazy containers), `Value`, `vbeq` (PartialEq)
* `src/builtin.rs` → `builtinJson`, `builtinGet`, `builtinAssoc`, `builtinScope`
* `src/parser.rs`  → the `Expression` / `Command` AST (the interpreter's view,
  which includes the arithmetic/boolean operator nodes matched in
  `Interpreter::eval_expression`)
* `src/interpreter.rs` → `eval`, `Program`, `Interpreter`, `run`, `undo`, ...

Modelling conventions:
* Shared in-place mutation (`Rc<RefCell<...>>`) becomes explicit state
  passing: container operations return the updated container next to their
  result.  The partially-realized prefix every holder observes in Rust is the
  returned container here.
* A boxed generator (`Box<dyn Iterator<Item = Result<T>>>`) is modelled as a
  finite list of yields `List (Except Err T)`; pulling one element consumes
  the head.
* `f64` is idealized as `Rat`; no claim in this development depends on
  floating-point rounding, division by zero, or NaN.
* `panic!`-like aborts (`todo!`, `unreachable!`, failed `assert!`) are the
  `panic` outcome, distinct from recoverable `Result::Err` values.
* Recursive interpreter functions take explicit fuel (structural recursion on
  `Nat`) so that every definition is executable and kernel-reducible.
-/

/-- src/error.rs: the `Error` enum. -/
inductive Err where
  | functionNotFound (name : String)
  | invalidArity (name : String) (got : Nat) (expected : List Nat)
  | builtinFunctionError (msg : String)
  | shiftRightEmptySequence
  | shiftLeftNotInShift
  | variableNotFound (name : String)
  | invalidType (expected : String)
  | invalidTypes (expected : List String)

/-- Outcome of evaluating an expression or builtin: a normal value, a
recoverable `Result::Err`, a process abort (`todo!` / `unreachable!` /
`assert!` failures), or exhaustion of the model's artificial fuel. -/
inductive Outcome (α : Type) where
  | ok (v : α)
  | err (e : Err)
  | panic (msg : String)
  | fuelOut

/-- src/data.rs `List`: realized prefix `elements` plus optional pending
generator `rest` (a lazily evaluated list). -/
structure LList (α : Type) where
  elements : List α
  rest : Option (List (Except Err α))

/-- The while-loop body of `List::realize_n`: pull from the generator while
`needed > 0`.  Returns (needed left, new elements, remaining generator,
error if a pull failed).  An erroring pull is consumed but not appended, and
stops the loop (the `?` early return in the source). -/
def llLoop {α : Type} : Nat → List α → List (Except Err α) →
    Nat × List α × List (Except Err α) × Option Err
  | needed, elems, gen =>
    if needed = 0 then (0, elems, gen, none)
    else
      match gen with
      | [] => (needed, elems, [], none)
      | .error e :: g => (needed, elems, g, some e)
      | .ok x :: g => llLoop (needed - 1) (elems ++ [x]) g

/-- src/data.rs `List::realize_n` ("Expand to length n"): pull until `n`
elements are realized or the generator is exhausted; clear `rest` if the
generator was observed to run dry; on a pull error return early with the
partial state (`rest` keeps the unconsumed remainder). -/
def LList.realize_n {α : Type} (l : LList α) (n : Nat) : LList α × Option Err :=
  let needed := n - l.elements.length
  match l.rest with
  | none => (l, none)
  | some gen =>
    match llLoop needed l.elements gen with
    | (_, elems, g, some e) => (⟨elems, some g⟩, some e)
    | (needed2, elems, g, none) =>
      if needed2 > 0 then (⟨elems, none⟩, none) else (⟨elems, some g⟩, none)

/-- src/data.rs `List::get`: realize to length `n+1`, then index. -/
def LList.get {α : Type} (l : LList α) (n : Nat) : LList α × Except Err (Option α) :=
  match l.realize_n (n + 1) with
  | (l2, some e) => (l2, .error e)
  | (l2, none) => (l2, .ok (l2.elements.get? n))

/-- Drain loop of `List::realize_all`: push every yield; an error stops the
drain (the iterator was already `take`n, so the remainder is dropped). -/
def llDrain {α : Type} : List α → List (Except Err α) → List α × Option Err
  | acc, [] => (acc, none)
  | acc, .error e :: _ => (acc, some e)
  | acc, .ok x :: g => llDrain (acc ++ [x]) g

/-- src/data.rs `List::realize_all`: `take` the generator and drain it. -/
def LList.realize_all {α : Type} (l : LList α) : LList α × Option Err :=
  match l.rest with
  | none => (l, none)
  | some gen =>
    match llDrain l.elements gen with
    | (es, e) => (⟨es, none⟩, e)

/-- src/data.rs `Dict`: realized prefix (an insertion-ordered `IndexMap`,
modelled as an association list with unique keys) plus pending generator. -/
structure LDict (α : Type) where
  elements : List (String × α)
  rest : Option (List (Except Err (String × α)))

/-- `IndexMap::insert`: replace in place if the key exists, else append. -/
def imInsert {α : Type} (m : List (String × α)) (k : String) (v : α) :
    List (String × α) :=
  if m.any (fun p => p.1 = k) then
    m.map (fun p => if p.1 = k then (k, v) else p)
  else m ++ [(k, v)]

/-- `IndexMap::get`: lookup by key. -/
def imGet {α : Type} : List (String × α) → String → Option α
  | [], _ => none
  | p :: m, k => if p.1 = k then some p.2 else imGet m k

/-- The while-loop body of `Dict::realize_n` (like `llLoop` with
`IndexMap::insert` instead of push). -/
def ldLoop {α : Type} : Nat → List (String × α) → List (Except Err (String × α)) →
    Nat × List (String × α) × List (Except Err (String × α)) × Option Err
  | needed, elems, gen =>
    if needed = 0 then (0, elems, gen, none)
    else
      match gen with
      | [] => (needed, elems, [], none)
      | .error e :: g => (needed, elems, g, some e)
      | .ok (k, v) :: g => ldLoop (needed - 1) (imInsert elems k v) g

/-- src/data.rs `Dict::realize_n` ("Expand to size n").  NOTE: the source
computes `(n + 1).saturating_sub(len)`, so it pulls until `n + 1` pairs are
realized — one more than its own doc comment says. -/
def LDict.realize_n {α : Type} (d : LDict α) (n : Nat) : LDict α × Option Err :=
  let needed := (n + 1) - d.elements.length
  match d.rest with
  | none => (d, none)
  | some gen =>
    match ldLoop needed d.elements gen with
    | (_, elems, g, some e) => (⟨elems, some g⟩, some e)
    | (needed2, elems, g, none) =>
      if needed2 > 0 then (⟨elems, none⟩, none) else (⟨elems, some g⟩, none)

/-- src/data.rs `Dict::get_first`: `realize_n(1)` then the insertion-order
first pair. -/
def LDict.get_first {α : Type} (d : LDict α) :
    LDict α × Except Err (Option (String × α)) :=
  match d.realize_n 1 with
  | (d2, some e) => (d2, .error e)
  | (d2, none) => (d2, .ok d2.elements.head?)

/-- src/data.rs `Dict::get_nth`: `realize_n(n+1)` then `get_index(n)`. -/
def LDict.get_nth {α : Type} (d : LDict α) (n : Nat) :
    LDict α × Except Err (Option (String × α)) :=
  match d.realize_n (n + 1) with
  | (d2, some e) => (d2, .error e)
  | (d2, none) => (d2, .ok (d2.elements.get? n))

/-- Loop of `Dict::realize_look_for`: insert each pulled pair, returning as
soon as the sought key is produced.  The generator was `take`n by the caller,
so whatever is not consumed here is dropped. -/
def rlfLoop {α : Type} (key : String) : List (String × α) →
    List (Except Err (String × α)) → List (String × α) × Except Err (Option α)
  | elems, [] => (elems, .ok none)
  | elems, .error e :: _ => (elems, .error e)
  | elems, .ok (k, v) :: g =>
    let elems2 := imInsert elems k v
    if k = key then (elems2, .ok (some v)) else rlfLoop key elems2 g

/-- src/data.rs `Dict::realize_look_for`: `take` the generator (it becomes
`None` in every outcome — on the short-circuit return the unconsumed
remainder is silently dropped), pull one pair at a time until the key is
produced, else fall through to a realized-prefix lookup. -/
def LDict.realize_look_for {α : Type} (d : LDict α) (key : String) :
    LDict α × Except Err (Option α) :=
  match d.rest with
  | none => (d, .ok (imGet d.elements key))
  | some gen =>
    match rlfLoop key d.elements gen with
    | (elems, .ok (some v)) => (⟨elems, none⟩, .ok (some v))
    | (elems, .ok none) => (⟨elems, none⟩, .ok (imGet elems key))
    | (elems, .error e) => (⟨elems, none⟩, .error e)

/-- src/data.rs `Dict::get`: `realize_look_for(key)?` then a fresh lookup in
the realized prefix. -/
def LDict.get {α : Type} (d : LDict α) (key : String) :
    LDict α × Except Err (Option α) :=
  match d.realize_look_for key with
  | (d2, .error e) => (d2, .error e)
  | (d2, .ok _) => (d2, .ok (imGet d2.elements key))

/-- Drain loop of `Dict::realize_all`. -/
def ldDrain {α : Type} : List (String × α) → List (Except Err (String × α)) →
    List (String × α) × Option Err
  | acc, [] => (acc, none)
  | acc, .error e :: _ => (acc, some e)
  | acc, .ok (k, v) :: g => ldDrain (imInsert acc k v) g

/-- src/data.rs `Dict::realize_all`. -/
def LDict.realize_all {α : Type} (d : LDict α) : LDict α × Option Err :=
  match d.rest with
  | none => (d, none)
  | some gen =>
    match ldDrain d.elements gen with
    | (es, e) => (⟨es, none⟩, e)

/-- src/data.rs `Value`: the tagged-union data model.  `Int` is `u64` in the
source; only JSON parsing range-checks it, so `Nat` with an explicit bound at
the parse site is faithful.  `Float` (`f64`) is idealized as `Rat`.  `List`
and `Dict` inline the lazy-container fields; `Function` keeps the name and
accepted arities, with the native implementation dispatched by name (the only
`Function` values the program ever constructs are the three builtins). -/
inductive Value where
  | null
  | bool (b : Bool)
  | int (n : Nat)
  | float (q : Rat)
  | string (s : String)
  | list (elements : List Value) (rest : Option (List (Except Err Value)))
  | dict (elements : List (String × Value)) (rest : Option (List (Except Err (String × Value))))
  | function (name : String) (arities : List Nat)

/-- src/data.rs `Value::as_number`. -/
def Value.as_number : Value → Option Rat
  | .int n => some (n : Rat)
  | .float q => some q
  | _ => none

/-- src/data.rs `Value::as_string`. -/
def Value.as_string : Value → Option String
  | .string s => some s
  | _ => none

/-- src/data.rs `Value::as_bool`. -/
def Value.as_bool : Value → Option Bool
  | .bool b => some b
  | _ => none

/-- Pack the fields of a `Value.list` as an `LList`. -/
def Value.asLList (es : List Value) (r : Option (List (Except Err Value))) :
    LList Value := ⟨es, r⟩

/-- Pack the fields of a `Value.dict` as an `LDict`. -/
def Value.asLDict (es : List (String × Value))
    (r : Option (List (Except Err (String × Value)))) : LDict Value := ⟨es, r⟩

mutual

/-- src/data.rs `impl PartialEq`: structural equality except that `List` and
`Dict` compare only their realized prefixes (the pending generator is
ignored) and `Function` compares by name only.  The `Dict` case follows
`IndexMap`'s order-independent equality: equal sizes and, for every realized
key, an equal value under the same key on the other side. -/
def vbeq : Value → Value → Bool
  | .null, .null => true
  | .bool a, .bool b => a == b
  | .int a, .int b => a == b
  | .float a, .float b => a == b
  | .string a, .string b => a == b
  | .list es _, .list fs _ => vbeqL es fs
  | .dict es _, .dict fs _ => (es.length == fs.length) && vbeqD fs es
  | .function n _, .function m _ => n == m
  | _, _ => false

/-- Elementwise `PartialEq` on realized list prefixes. -/
def vbeqL : List Value → List Value → Bool
  | [], [] => true
  | a :: as_, b :: bs => vbeq a b && vbeqL as_ bs
  | _, _ => false

/-- For each realized pair of the second argument, look its key up in `fs`
and compare the values (the `IndexMap` equality loop). -/
def vbeqD (fs : List (String × Value)) : List (String × Value) → Bool
  | [] => true
  | (k, v) :: es => vbeqFind fs k v && vbeqD fs es

/-- Find `k` in `fs` and compare its value to `v`. -/
def vbeqFind : List (String × Value) → String → Value → Bool
  | [], _, _ => false
  | (k2, v2) :: fs, k, v => if k2 = k then vbeq v v2 else vbeqFind fs k v

end

/-- src/interpreter.rs `Scope`: a name→value map (`HashMap` in the source,
order never observed), modelled as an association list. -/
abbrev Scope := List (String × Value)

/-- `HashMap::get` on a scope. -/
def scopeGet : Scope → String → Option Value
  | [], _ => none
  | p :: sc, k => if p.1 = k then some p.2 else scopeGet sc k

/-- `HashMap::insert` on a scope (replace or add). -/
def scopeInsert (sc : Scope) (k : String) (v : Value) : Scope :=
  if sc.any (fun p => p.1 = k) then
    sc.map (fun p => if p.1 = k then (k, v) else p)
  else sc ++ [(k, v)]

/-- The double-quote character (written via its code point to keep string
literals simple). -/
def quoteChar : Char := Char.ofNat 34

/-- The opening-brace character. -/
def lbrace : Char := Char.ofNat 123

/-- The closing-brace character. -/
def rbrace : Char := Char.ofNat 125

/-- JSON whitespace skipping. -/
def skipWs : List Char → List Char
  | c :: cs => if c = ' ' ∨ c = Char.ofNat 10 ∨ c = Char.ofNat 9 ∨ c = Char.ofNat 13
      then skipWs cs else c :: cs
  | [] => []

/-- Digits to a natural number. -/
def digitsToNat (ds : List Char) : Nat :=
  ds.foldl (fun acc c => 10 * acc + (c.toNat - 48)) 0

/-- Scan a JSON string body up to the closing quote (no escape sequences:
none of the inputs of this development use them). -/
def scanString : List Char → Option (List Char × List Char)
  | [] => none
  | c :: cs =>
    if c = quoteChar then some ([], cs)
    else match scanString cs with
      | some (body, rest) => some (c :: body, rest)
      | none => none

/-- An unsigned decimal number with optional fractional part: returns the
rational value, whether it had no fractional part, and the remaining input. -/
def parseNumber (cs : List Char) : Option (Rat × Bool × List Char) :=
  let ds := cs.takeWhile Char.isDigit
  let rest := cs.dropWhile Char.isDigit
  if ds.isEmpty then none
  else
    match rest with
    | '.' :: rest2 =>
      let fs := rest2.takeWhile Char.isDigit
      let rest3 := rest2.dropWhile Char.isDigit
      if fs.isEmpty then none
      else
        some ((digitsToNat ds : Rat) + (digitsToNat fs : Rat) / ((10 : Rat) ^ fs.length),
          false, rest3)
    | _ => some ((digitsToNat ds : Rat), true, rest)

mutual

/-- Modelled from the spec: `serde_json::from_str` combined with
`From<serde_json::Value> for Value` (src/builtin.rs), at the boundary fixed
in spec section 6: JSON array → realized `List`, JSON object → realized
insertion-ordered `Dict`, number without fractional part representable as
unsigned 64-bit → `Int`, otherwise → `Float`, string/bool/null direct.
`serde_json` is an external crate, so this subset parser (no escape
sequences, no exponents — none of the claims' inputs use them) models its
observable behavior on the inputs that decide the claims. -/
def parseJson : Nat → List Char → Option (Value × List Char)
  | 0, _ => none
  | fuel + 1, cs =>
    match skipWs cs with
    | 'n' :: 'u' :: 'l' :: 'l' :: rest => some (.null, rest)
    | 't' :: 'r' :: 'u' :: 'e' :: rest => some (.bool true, rest)
    | 'f' :: 'a' :: 'l' :: 's' :: 'e' :: rest => some (.bool false, rest)
    | c :: rest =>
      if c = quoteChar then
        match scanString rest with
        | some (body, rest2) => some (.string (String.mk body), rest2)
        | none => none
      else if c = '[' then
        match skipWs rest with
        | c2 :: rest2 =>
          if c2 = ']' then some (.list [] none, rest2)
          else
            match parseArrayItems fuel (c2 :: rest2) with
            | some (items, rest3) => some (.list items none, rest3)
            | none => none
        | [] => none
      else if c = lbrace then
        match skipWs rest with
        | c2 :: rest2 =>
          if c2 = rbrace then some (.dict [] none, rest2)
          else
            match parseObjectItems fuel (c2 :: rest2) with
            | some (items, rest3) => some (.dict items none, rest3)
            | none => none
        | [] => none
      else if c = '-' then
        match parseNumber (rest) with
        | some (q, _isInt, rest2) => some (.float (-q), rest2)
        | none => none
      else if c.isDigit then
        match parseNumber (c :: rest) with
        | some (q, isInt, rest2) =>
          if isInt ∧ q.num.toNat < 2 ^ 64 then some (.int q.num.toNat, rest2)
          else some (.float q, rest2)
        | none => none
      else none
    | [] => none

/-- Comma-separated JSON array elements up to `]`. -/
def parseArrayItems : Nat → List Char → Option (List Value × List Char)
  | 0, _ => none
  | fuel + 1, cs =>
    match parseJson fuel cs with
    | some (v, rest) =>
      match skipWs rest with
      | ',' :: rest2 =>
        match parseArrayItems fuel rest2 with
        | some (items, rest3) => some (v :: items, rest3)
        | none => none
      | ']' :: rest2 => some ([v], rest2)
      | _ => none
    | none => none

/-- Comma-separated JSON object entries up to the closing brace. -/
def parseObjectItems : Nat → List Char → Option (List (String × Value) × List Char)
  | 0, _ => none
  | fuel + 1, cs =>
    match skipWs cs with
    | c :: rest =>
      if c = quoteChar then
        match scanString rest with
        | some (key, rest2) =>
          match skipWs rest2 with
          | ':' :: rest3 =>
            match parseJson fuel rest3 with
            | some (v, rest4) =>
              match skipWs rest4 with
              | ',' :: rest5 =>
                match parseObjectItems fuel rest5 with
                | some (items, rest6) => some ((String.mk key, v) :: items, rest6)
                | none => none
              | c2 :: rest5 =>
                if c2 = rbrace then some ([(String.mk key, v)], rest5) else none
              | [] => none
            | none => none
          | _ => none
        | none => none
      else none
    | [] => none

end

/-- Top-level modelled `serde_json::from_str`: parse one JSON value and
require only trailing whitespace. -/
def jsonParse (s : String) : Option Value :=
  match parseJson (s.length + 1) s.toList with
  | some (v, rest) => if skipWs rest = [] then some v else none
  | none => none

/-- Abbreviated rendering of a `Value` used only to interpolate
`format!("... {:?}/{}", value)` inside builtin error messages.  No claim of
this development depends on the text of a `BuiltinFunctionError` message, so
the Rust `Debug`/`Display` output is abbreviated to the variant name. -/
def dbgV : Value → String
  | .null => "Null"
  | .bool b => if b then "Bool(true)" else "Bool(false)"
  | .int n => "Int(" ++ toString n ++ ")"
  | .float _ => "Float(..)"
  | .string s => "String(" ++ s ++ ")"
  | .list _ _ => "List(..)"
  | .dict _ _ => "Dict(..)"
  | .function n _ => "Function(" ++ n ++ ")"

/-- src/builtin.rs `json`: argument must be a string, parse it (any
`serde_json` failure becomes a `BuiltinFunctionError`).  The `assert!` on
the argument count is a panic. -/
def builtinJson (args : List Value) : Outcome Value :=
  match args with
  | [arg] =>
    match arg with
    | .string s =>
      match jsonParse s with
      | some v => .ok v
      | none => .err (.builtinFunctionError "failed to parse JSON")
    | _ => .err (.builtinFunctionError
        ("json function expects a string, got " ++ dbgV arg))
  | _ => .panic "json function expects exactly one argument"

/-- src/builtin.rs `get`: a String key requires a Dict and reads only the
REALIZED prefix (`dict.elements.borrow().get(s)`), returning `Null` when the
key is not there — the pending generator is never consulted.  An Int key
requires a List and goes through `List::get` (which does realize on
demand). -/
def builtinGet (args : List Value) : Outcome Value :=
  match args with
  | [container, key] =>
    match key with
    | .string s =>
      match container with
      | .dict es _ =>
        .ok (match imGet es s with
          | some v => v
          | none => .null)
      | _ => .err (.builtinFunctionError
          ("get function expects a dict as the first argument, got " ++ dbgV container))
    | .int n =>
      match container with
      | .list es r =>
        match LList.get ⟨es, r⟩ n with
        | (_, .error e) => .err e
        | (_, .ok (some v)) => .ok v
        | (_, .ok none) => .err (.builtinFunctionError
            ("index out of bounds: " ++ toString n))
      | _ => .err (.builtinFunctionError
          ("get function expects a list as the first argument, got " ++ dbgV container))
    | _ => .err (.builtinFunctionError
        "get function expects a string or an integer as the second argument")
  | _ => .panic "get function expects exactly two arguments"

/-- src/builtin.rs `assoc`: fully realize the container, then return a new
fully realized container with the key/index updated (out-of-bounds Int index
is an error). -/
def builtinAssoc (args : List Value) : Outcome Value :=
  match args with
  | [container, key, value] =>
    match key with
    | .string s =>
      match container with
      | .dict es r =>
        match LDict.realize_all ⟨es, r⟩ with
        | (_, some e) => .err e
        | (d, none) => .ok (.dict (imInsert d.elements s value) none)
      | _ => .err (.builtinFunctionError
          ("assoc function expects a dict as the first argument, got " ++ dbgV container))
    | .int n =>
      match container with
      | .list es r =>
        match LList.realize_all ⟨es, r⟩ with
        | (_, some e) => .err e
        | (l, none) =>
          if n < l.elements.length then .ok (.list (l.elements.set n value) none)
          else .err (.builtinFunctionError ("index out of bounds: " ++ toString n))
      | _ => .err (.builtinFunctionError
          ("assoc function expects a list as the first argument, got " ++ dbgV container))
    | _ => .err (.builtinFunctionError
        "assoc function expects a string or an integer as the second argument")
  | _ => .panic "assoc function expects exactly three arguments"

/-- Dispatch a `Function` value's native implementation by name.  Every
`Function` the program constructs is one of the three builtins
(src/builtin.rs `builtin_functions`); any other name would be a boxed
closure that does not exist, hence an engine fault. -/
def applyFunction (name : String) (args : List Value) : Outcome Value :=
  if name = "json" then builtinJson args
  else if name = "get" then builtinGet args
  else if name = "assoc" then builtinAssoc args
  else .panic "no builtin implementation"

/-- src/builtin.rs `builtin_functions`: the initial scope bindings `json`
(arity set {1}), `get` ({2}) and `assoc` ({3}). -/
def builtinScope : Scope :=
  [("json", .function "json" [1]),
   ("get", .function "get" [2]),
   ("assoc", .function "assoc" [3])]

/-- src/parser.rs `Expression`, as consumed by
`Interpreter::eval_expression` (which also matches the arithmetic, boolean
and identifier nodes).  `This` is named `thisE` because `this` is reserved
in Lean. -/
inductive Expression where
  | thisE
  | literal (v : Value)
  | plus (x y : Expression)
  | minus (x y : Expression)
  | unaryMinus (x : Expression)
  | multiply (x y : Expression)
  | divide (x y : Expression)
  | and (x y : Expression)
  | or (x y : Expression)
  | list (l : List Expression)
  | dict (d : List (String × Expression))
  | identifier (name : String)
  | functionCall (name : String) (args : List Expression)

/-- src/parser.rs `Command`. -/
inductive Command where
  | shiftRight (kv : Option (String × String))
  | shiftLeft (kv : Option (Expression × Expression))
  | expression (e : Expression)

/-- src/interpreter.rs `eval_number_pair`, as a post-processor of the two
operand outcomes: inspect the first; a non-number first operand fails
without the second outcome ever being inspected (the operands themselves are
pure data here, so Rust's evaluation order is preserved observably). -/
def numberPair (ox oy : Outcome Value) : Outcome (Rat × Rat) :=
  match ox with
  | .panic m => .panic m
  | .err e => .err e
  | .fuelOut => .fuelOut
  | .ok xv =>
    match xv.as_number with
    | none => .err (.invalidType "number")
    | some a =>
      match oy with
      | .panic m => .panic m
      | .err e => .err e
      | .fuelOut => .fuelOut
      | .ok yv =>
        match yv.as_number with
        | none => .err (.invalidType "number")
        | some b => .ok (a, b)

mutual

/-- src/interpreter.rs `Interpreter::eval_expression`.  The `Identifier`
case inlines the `FunctionCall(name, [])` re-dispatch the source performs
(the second scope lookup yields the same binding); the failed
`assert_eq!(name, name2)` is a panic.  In `FunctionCall`, the implicit
`This` prefix of a this-injected call evaluates to the current value, which
is prepended after the explicit arguments are evaluated — `This` evaluates
to `this` without any effect, so the order is preserved observably. -/
def eval : Nat → Scope → Expression → Value → Outcome Value
  | 0, _, _, _ => .fuelOut
  | fuel + 1, scope, e, thisv =>
    match e with
    | .thisE => .ok thisv
    | .literal v => .ok v
    | .plus x y =>
      match numberPair (eval fuel scope x thisv) (eval fuel scope y thisv) with
      | .ok (a, b) => .ok (.float (a + b))
      | .panic m => .panic m
      | .fuelOut => .fuelOut
      | .err _ =>
        match eval fuel scope x thisv with
        | .panic m => .panic m
        | .err e2 => .err e2
        | .fuelOut => .fuelOut
        | .ok xv =>
          match xv.as_string with
          | none => .err (.invalidTypes ["string", "number"])
          | some xs =>
            match eval fuel scope y thisv with
            | .panic m => .panic m
            | .err e2 => .err e2
            | .fuelOut => .fuelOut
            | .ok yv =>
              match yv.as_string with
              | none => .err (.invalidTypes ["string", "number"])
              | some ys => .ok (.string (xs ++ ys))
    | .minus x y =>
      match numberPair (eval fuel scope x thisv) (eval fuel scope y thisv) with
      | .ok (a, b) => .ok (.float (a - b))
      | .panic m => .panic m
      | .err e2 => .err e2
      | .fuelOut => .fuelOut
    | .unaryMinus x =>
      match eval fuel scope x thisv with
      | .panic m => .panic m
      | .err e2 => .err e2
      | .fuelOut => .fuelOut
      | .ok xv =>
        match xv.as_number with
        | none => .err (.invalidType "number")
        | some a => .ok (.float (-a))
    | .multiply x y =>
      match numberPair (eval fuel scope x thisv) (eval fuel scope y thisv) with
      | .ok (a, b) => .ok (.float (a * b))
      | .panic m => .panic m
      | .err e2 => .err e2
      | .fuelOut => .fuelOut
    | .divide x y =>
      match numberPair (eval fuel scope x thisv) (eval fuel scope y thisv) with
      | .ok (a, b) => .ok (.float (a / b))
      | .panic m => .panic m
      | .err e2 => .err e2
      | .fuelOut => .fuelOut
    | .and x y =>
      match eval fuel scope x thisv with
      | .panic m => .panic m
      | .err e2 => .err e2
      | .fuelOut => .fuelOut
      | .ok xv =>
        match xv.as_bool with
        | none => .err (.invalidType "boolean")
        | some b => if b then eval fuel scope y thisv else .ok (.bool false)
    | .or x y =>
      match eval fuel scope x thisv with
      | .panic m => .panic m
      | .err e2 => .err e2
      | .fuelOut => .fuelOut
      | .ok xv =>
        match xv.as_bool with
        | none => .err (.invalidType "boolean")
        | some b => if b then .ok (.bool true) else eval fuel scope y thisv
    | .list l =>
      match evalArgs fuel scope l thisv with
      | .ok vs => .ok (.list vs none)
      | .err e2 => .err e2
      | .panic m => .panic m
      | .fuelOut => .fuelOut
    | .dict _ => .panic "not yet implemented"
    | .identifier name =>
      match scopeGet scope name with
      | none => .err (.variableNotFound name)
      | some v =>
        match v with
        | .function fname arities =>
          if name = fname then
            if arities.contains 0 then applyFunction fname []
            else if arities.contains 1 then applyFunction fname [thisv]
            else .err (.invalidArity name 0 arities)
          else .panic "assertion failed: name == name2"
        | _ => .ok v
    | .functionCall name args =>
      match scopeGet scope name with
      | none => .err (.functionNotFound name)
      | some f =>
        match f with
        | .function fname arities =>
          if arities.contains args.length then
            match evalArgs fuel scope args thisv with
            | .ok argv => applyFunction fname argv
            | .err e2 => .err e2
            | .panic m => .panic m
            | .fuelOut => .fuelOut
          else if arities.contains (args.length + 1) then
            match evalArgs fuel scope args thisv with
            | .ok argv => applyFunction fname (thisv :: argv)
            | .err e2 => .err e2
            | .panic m => .panic m
            | .fuelOut => .fuelOut
          else .err (.invalidArity name args.length arities)
        | _ => .err (.functionNotFound name)

/-- Left-to-right evaluation of an expression list (list literals and call
arguments), stopping at the first failure. -/
def evalArgs : Nat → Scope → List Expression → Value → Outcome (List Value)
  | 0, _, _, _ => .fuelOut
  | _ + 1, _, [], _ => .ok []
  | fuel + 1, scope, x :: xs, thisv =>
    match eval fuel scope x thisv with
    | .ok v =>
      match evalArgs fuel scope xs thisv with
      | .ok vs => .ok (v :: vs)
      | .err e2 => .err e2
      | .panic m => .panic m
      | .fuelOut => .fuelOut
    | .err e2 => .err e2
    | .panic m => .panic m
    | .fuelOut => .fuelOut

end

/-- src/interpreter.rs `ExecutedCommand`: a replayable history record. -/
inductive ExecutedCommand where
  | simple (command : Command)
  | group (name : String) (enter_kv : Option (String × String))
      (commands : List ExecutedCommand)
      (leave_kv : Option (Expression × Expression))

/-- src/interpreter.rs `CachedCommand`: a record plus its resulting value. -/
structure CachedCommand where
  command : ExecutedCommand
  result : Value

/-- src/interpreter.rs `Program`: the navigation state machine.  A `closed`
frame is a flat history; an `opened` frame additionally holds the descend
metadata and the frame that was active before the descend. -/
inductive Program where
  | closed (initial : Value) (scope : Scope) (commands : List CachedCommand)
  | opened (name : String) (kv : Option (String × String)) (history : Program)
      (initial : Value) (scope : Scope) (commands : List CachedCommand)

/-- src/interpreter.rs `Program::value`: the last record's result, or the
frame's initial value when the active frame has no records. -/
def Program.value : Program → Value
  | .closed initial _ commands => match commands.getLast? with
    | some c => c.result
    | none => initial
  | .opened _ _ _ initial _ commands => match commands.getLast? with
    | some c => c.result
    | none => initial

/-- src/interpreter.rs `Program::scope`. -/
def Program.scope : Program → Scope
  | .closed _ scope _ => scope
  | .opened _ _ _ _ scope _ => scope

/-- src/interpreter.rs `Program::push`: append a record to the active
frame. -/
def Program.push : Program → CachedCommand → Program
  | .closed initial scope commands, c => .closed initial scope (commands ++ [c])
  | .opened name kv history initial scope commands, c =>
    .opened name kv history initial scope (commands ++ [c])

/-- src/interpreter.rs `Program::pop`: drop the active frame's most recent
record (no-op when there is none). -/
def Program.pop : Program → Program
  | .closed initial scope commands => .closed initial scope commands.dropLast
  | .opened name kv history initial scope commands =>
    .opened name kv history initial scope commands.dropLast

/-- The active frame's recorded commands (the vector `Program::push` and
`Program::pop` operate on). -/
def Program.activeCommands : Program → List CachedCommand
  | .closed _ _ commands => commands
  | .opened _ _ _ _ _ commands => commands

/-- src/interpreter.rs `Program::status`: container-kind labels with bound
variable names, outermost descend first. -/
def Program.status : Program → List String
  | .closed _ _ _ => []
  | .opened name kv history _ _ _ =>
    Program.status history ++
      [name ++ " (" ++ (kv.map (fun p => p.1 ++ ": " ++ p.2)).getD "" ++ ")"]

/-- src/interpreter.rs `Interpreter` (the empty `Settings` struct is
omitted). -/
structure Interpreter where
  program : Program

/-- src/interpreter.rs `Interpreter::new`: seed with the raw input text as a
String value (not parsed) and the builtin scope. -/
def Interpreter.new (input : String) : Interpreter :=
  ⟨.closed (.string input) builtinScope []⟩

/-- src/interpreter.rs `Interpreter::value`. -/
def Interpreter.value (i : Interpreter) : Value := i.program.value

/-- src/interpreter.rs `Interpreter::scope`. -/
def Interpreter.scope (i : Interpreter) : Scope := i.program.scope

/-- src/interpreter.rs `Interpreter::status`. -/
def Interpreter.status (i : Interpreter) : List String := i.program.status

/-- src/interpreter.rs `Interpreter::undo`. -/
def Interpreter.undo (i : Interpreter) : Interpreter := ⟨i.program.pop⟩

/-- One step of src/data.rs `ListIter`: `get(index)` then advance.  `fuel`
bounds the unfolding; `elements.length + pending length + 1` always
suffices, since each yielded item advances the index and the index can never
exceed the maximal realizable length. -/
def listIterGo : Nat → LList Value → Nat → List (Except Err Value)
  | 0, _, _ => []
  | fuel + 1, l, idx =>
    match LList.get l idx with
    | (l2, .error e) => .error e :: listIterGo fuel l2 (idx + 1)
    | (_, .ok none) => []
    | (l2, .ok (some v)) => .ok v :: listIterGo fuel l2 (idx + 1)

/-- The full yield sequence of src/data.rs `ListIter` over a list value. -/
def listIterSeq (l : LList Value) : List (Except Err Value) :=
  listIterGo (l.elements.length + (l.rest.map List.length).getD 0 + 1) l 0

/-- One step of src/data.rs `DictIter`: `get_nth(index)` then advance. -/
def dictIterGo : Nat → LDict Value → Nat → List (Except Err (String × Value))
  | 0, _, _ => []
  | fuel + 1, d, idx =>
    match LDict.get_nth d idx with
    | (d2, .error e) => .error e :: dictIterGo fuel d2 (idx + 1)
    | (_, .ok none) => []
    | (d2, .ok (some p)) => .ok p :: dictIterGo fuel d2 (idx + 1)

/-- The full yield sequence of src/data.rs `DictIter` over a dict value. -/
def dictIterSeq (d : LDict Value) : List (Except Err (String × Value)) :=
  dictIterGo (d.elements.length + (d.rest.map List.length).getD 0 + 1) d 0

/-- The iterable built by `ShiftLeft` (src/interpreter.rs lines 131-142)
from the closed-over history frame's value: a List yields its elements, a
Dict yields each pair re-packaged as a realized two-element
`[String key, value]` list; anything else is the `unreachable!` fault
(`none` here). -/
def iterOf : Value → Option (List (Except Err Value))
  | .list es r => some (listIterSeq ⟨es, r⟩)
  | .dict es r => some ((dictIterSeq ⟨es, r⟩).map (fun item =>
      match item with
      | .error e => .error e
      | .ok (k, v) => .ok (.list [.string k, v] none)))
  | _ => none

/-- Result of `Interpreter::run` (`&mut self` + `Result<()>` in the source):
on success the updated interpreter, on a recoverable error the error next to
the interpreter the caller keeps using (its history untouched — proven
below), plus the abort and fuel-exhaustion outcomes. -/
inductive RunResult where
  | ok (i : Interpreter)
  | err (i : Interpreter) (e : Err)
  | panic (msg : String)
  | fuelOut

/-- Result of eagerly tabulating the per-element replay iterator a
`ShiftLeft` installs as the new container's pending generator.  In Rust the
replays run lazily at realization time; here their yields (values or
recoverable errors) are computed up front and stored as the pending list,
which preserves every realizable outcome.  A replay that would abort the
process surfaces as `panic` already at the `ShiftLeft`. -/
inductive ReplayOut where
  | ok (items : List (Except Err Value))
  | panic (msg : String)
  | fuelOut

mutual

/-- src/interpreter.rs `Interpreter::run`.  Recoverable failures return
`err` with the interpreter unchanged, mirroring the early `?` returns (the
only pre-error mutations in the source are in-place cache realizations of
shared containers, which change no observable value).  The `todo!` arms —
invalid shift-right, dict-descend ascend (`enter_kv` is always `Some` for a
dict descend), keyed ascend — are panics. -/
def run : Nat → Interpreter → Command → RunResult
  | 0, _, _ => .fuelOut
  | fuel + 1, i, cmd =>
    let thisv := i.value
    let scope := i.scope
    match cmd with
    | .expression e =>
      match eval (fuel + 1) scope e thisv with
      | .ok result => .ok ⟨i.program.push ⟨.simple (.expression e), result⟩⟩
      | .err e2 => .err i e2
      | .panic m => .panic m
      | .fuelOut => .fuelOut
    | .shiftRight kv =>
      match thisv, kv with
      | .list es r, none =>
        match LList.get ⟨es, r⟩ 0 with
        | (_, .error e2) => .err i e2
        | (_, .ok none) => .err i .shiftRightEmptySequence
        | (_, .ok (some first)) =>
          .ok ⟨.opened "list" none i.program first scope []⟩
      | .dict es r, kvOpt =>
        let kv2 := kvOpt.getD ("k", "v")
        match LDict.get_first ⟨es, r⟩ with
        | (_, .error e2) => .err i e2
        | (_, .ok none) => .err i .shiftRightEmptySequence
        | (_, .ok (some first)) =>
          let scope2 := scopeInsert (scopeInsert scope kv2.1 (.string first.1)) kv2.2 first.2
          .ok ⟨.opened "dict" (some kv2) i.program .null scope2 []⟩
      | _, _ => .panic "invalid shift right"
    | .shiftLeft leave_kv =>
      match i.program with
      | .closed _ _ _ => .err i .shiftLeftNotInShift
      | .opened name enter_kv history _ scope2 commands =>
        match iterOf history.value with
        | none => .panic "shifting left when last value is non sequence"
        | some items =>
          match enter_kv with
          | some _ => .panic "not yet implemented"
          | none =>
            match leave_kv with
            | some _ => .panic "not yet implemented"
            | none =>
              match mapReplay fuel scope2 commands items with
              | .panic m => .panic m
              | .fuelOut => .fuelOut
              | .ok entries =>
                .ok ⟨history.push
                  ⟨.group name enter_kv (commands.map CachedCommand.command) leave_kv,
                   .list [] (some entries)⟩⟩

  /-- src/interpreter.rs `Interpreter::rerun`: replay one recorded command;
  a `Group` re-executes descend, inner commands, ascend. -/
def rerun : Nat → Interpreter → ExecutedCommand → RunResult
  | 0, _, _ => .fuelOut
  | fuel + 1, i, .simple cmd => run fuel i cmd
  | fuel + 1, i, .group _ enter_kv commands leave_kv =>
    match run fuel i (.shiftRight enter_kv) with
    | .ok i2 =>
      match rerunAll fuel i2 commands with
      | .ok i3 => run fuel i3 (.shiftLeft leave_kv)
      | r => r
    | r => r

  /-- The `for command in &commands { interpreter.rerun(...)? }` loop. -/
def rerunAll : Nat → Interpreter → List ExecutedCommand → RunResult
  | 0, _, _ => .fuelOut
  | _ + 1, i, [] => .ok i
  | fuel + 1, i, c :: cs =>
    match rerun fuel i c with
    | .ok i2 => rerunAll fuel i2 cs
    | r => r

  /-- The per-element replay closure of `ShiftLeft` (src/interpreter.rs
  lines 150-164), tabulated over the iterable: an erroring yield passes
  through; a value seeds a fresh closed frame with the entry scope, replays
  every recorded command, and yields the final value (a replay error becomes
  the element's error yield). -/
def mapReplay : Nat → Scope → List CachedCommand → List (Except Err Value) → ReplayOut
  | 0, _, _, _ => .fuelOut
  | _ + 1, _, _, [] => .ok []
  | fuel + 1, scope, commands, item :: items =>
    match item with
    | .error e =>
      match mapReplay fuel scope commands items with
      | .ok entries => .ok (.error e :: entries)
      | r => r
    | .ok v =>
      match rerunAll fuel ⟨.closed v scope []⟩ (commands.map CachedCommand.command) with
      | .ok i2 =>
        match mapReplay fuel scope commands items with
        | .ok entries => .ok (.ok i2.value :: entries)
        | r => r
      | .err _ e =>
        match mapReplay fuel scope commands items with
        | .ok entries => .ok (.error e :: entries)
        | r => r
      | .panic m => .panic m
      | .fuelOut => .fuelOut

end

/-- src/data.rs `Value::realize`: drain the top-level container's pending
generator (not recursive into elements). -/
def Value.realize : Value → Value × Option Err
  | .list es r =>
    match LList.realize_all ⟨es, r⟩ with
    | (l, e) => (.list l.elements l.rest, e)
  | .dict es r =>
    match LDict.realize_all ⟨es, r⟩ with
    | (d, e) => (.dict d.elements d.rest, e)
  | v => (v, none)

/-- Popping right after pushing restores the frame exactly. -/
theorem Program.pop_push (p : Program) (c : CachedCommand) : (p.push c).pop = p := by
  cases p <;> simp [Program.push, Program.pop]

/-- Draining a generator of pure yields appends them all and reports no
error. -/
theorem llDrain_ok {α : Type} (acc : List α) (es : List α) :
    llDrain acc (es.map .ok) = (acc ++ es, none) := by
  induction es generalizing acc with
  | nil => simp [llDrain]
  | cons x xs ih => simp [llDrain, ih]

/-- Indexing a fully realized list performs no pull and leaves it
unchanged. -/
theorem LList.get_realized (es : List Value) (idx : Nat) :
    LList.get ⟨es, none⟩ idx = (⟨es, none⟩, .ok (es.get? idx)) := by
  simp [LList.get, LList.realize_n]

/-- Iterating a fully realized list yields exactly its elements, in order,
given enough unfolding fuel. -/
theorem listIterGo_realized (es : List Value) :
    ∀ (fuel idx : Nat), es.length - idx < fuel →
      listIterGo fuel ⟨es, none⟩ idx = (es.drop idx).map .ok := by
  intro fuel
  induction fuel with
  | zero => omega
  | succ f ih =>
    intro idx hlt
    rw [listIterGo, LList.get_realized]
    cases hidx : es.get? idx with
    | none =>
      have : es.length ≤ idx := by
        by_contra hc
        push_neg at hc
        exact absurd hidx (by simp [List.get?_eq_getElem?, List.getElem?_eq_getElem hc])
      simp [List.drop_eq_nil_of_le this]
    | some v =>
      have hlt2 : idx < es.length := by
        by_contra hc
        push_neg at hc
        simp [List.get?_eq_getElem?, List.getElem?_eq_none_iff.mpr hc] at hidx
      have hdrop : es.drop idx = v :: es.drop (idx + 1) := by
        rw [List.drop_eq_getElem_cons hlt2]
        congr 1
        simpa [List.get?_eq_getElem?, List.getElem?_eq_getElem hlt2] using hidx
      show Except.ok v :: listIterGo f ⟨es, none⟩ (idx + 1) = _
      rw [ih (idx + 1) (by omega), hdrop]
      simp

/-- Replaying an empty command group maps every pure yield to itself: the
fresh frame is seeded with the element and, with nothing to rerun, its value
is that element. -/
theorem mapReplay_nil (sc : Scope) :
    ∀ (es : List Value) (fuel : Nat), es.length + 1 ≤ fuel →
      mapReplay fuel sc [] (es.map .ok) = .ok (es.map .ok) := by
  intro es
  induction es with
  | nil =>
    intro fuel h
    cases fuel with
    | zero => omega
    | succ f => simp [mapReplay]
  | cons x xs ih =>
    intro fuel h
    simp only [List.length_cons] at h
    cases fuel with
    | zero => omega
    | succ f =>
      cases f with
      | zero => omega
      | succ g =>
        show mapReplay (g + 2) sc [] ((x :: xs).map .ok) = _
        simp only [List.map_cons, mapReplay, rerunAll, List.map_nil]
        rw [ih (g + 1) (by omega)]
        simp [Interpreter.value, Program.value]

/-- C1: descending into a List and immediately ascending with no commands in
between reproduces the original elements unchanged and in order.  In
general (for any active frame whose value is a realized nonempty List):
shift-right opens a frame on the first element; shift-left with an empty
replay group yields a still-pending List whose pending entries are exactly
the original elements, and realizing it gives back exactly those elements.
Concretely: seeding with "[1, 2, 3, 4]", running json makes the value the
List [1,2,3,4]; shift-right makes it 1; shift-left makes it a lazily pending
List that realizes to — and then compares equal (PartialEq) to —
[1,2,3,4]. -/
theorem descend_ascend_list_identity :
    (∀ (p : Program) (es : List Value) (e0 : Value) (fuel : Nat),
        p.value = .list es none → es.get? 0 = some e0 →
        run (fuel + 1) ⟨p⟩ (.shiftRight none) =
          .ok ⟨.opened "list" none p e0 p.scope []⟩) ∧
    (∀ (p : Program) (es : List Value) (e0 : Value) (sc : Scope) (fuel : Nat),
        p.value = .list es none → es.length + 2 ≤ fuel →
        run fuel ⟨.opened "list" none p e0 sc []⟩ (.shiftLeft none) =
          .ok ⟨p.push ⟨.group "list" none [] none, .list [] (some (es.map Except.ok))⟩⟩) ∧
    (∀ es : List Value,
        Value.realize (.list [] (some (es.map Except.ok))) = (.list es none, none)) ∧
    (∃ i1 i2 i3,
        run 10 (Interpreter.new "[1, 2, 3, 4]") (.expression (.functionCall "json" [])) = .ok i1 ∧
        i1.value = .list [.int 1, .int 2, .int 3, .int 4] none ∧
        run 10 i1 (.shiftRight none) = .ok i2 ∧
        i2.value = .int 1 ∧
        run 10 i2 (.shiftLeft none) = .ok i3 ∧
        i3.value = .list [] (some [.ok (.int 1), .ok (.int 2), .ok (.int 3), .ok (.int 4)]) ∧
        (Value.realize i3.value).1 = .list [.int 1, .int 2, .int 3, .int 4] none ∧
        vbeq (Value.realize i3.value).1 (.list [.int 1, .int 2, .int 3, .int 4] none) = true) := by
  refine ⟨?_, ?_, ?_, ?_⟩
  · intro p es e0 fuel hv h0
    simp only [run, Interpreter.value, Interpreter.scope, hv, LList.get_realized, h0]
  · intro p es e0 sc fuel hv hfuel
    cases fuel with
    | zero => omega
    | succ f =>
      simp only [run, hv, iterOf, listIterSeq]
      rw [show (⟨es, none⟩ : LList Value).elements.length +
          ((⟨es, none⟩ : LList Value).rest.map List.length).getD 0 + 1 = es.length + 1 from by
            simp,
        listIterGo_realized es (es.length + 1) 0 (by omega)]
      simp only [List.drop_zero]
      rw [mapReplay_nil sc es f (by omega)]
      simp
  · intro es
    simp [Value.realize, LList.realize_all, llDrain_ok]
  · refine ⟨_, _, _, rfl, rfl, rfl, rfl, rfl, rfl, rfl, ?_⟩
    show vbeq (.list [.int 1, .int 2, .int 3, .int 4] none)
      (.list [.int 1, .int 2, .int 3, .int 4] none) = true
    simp [vbeq, vbeqL]

/-- Witness for C1: the general shift-right conjunct applied to a concrete
realized two-element List. -/
theorem descend_ascend_list_identity_witness :
    run 3 ⟨Program.closed (.list [.int 7, .int 8] none) builtinScope []⟩ (.shiftRight none) =
      .ok ⟨.opened "list" none (Program.closed (.list [.int 7, .int 8] none) builtinScope [])
        (.int 7) builtinScope []⟩ :=
  descend_ascend_list_identity.1
    (Program.closed (.list [.int 7, .int 8] none) builtinScope [])
    [.int 7, .int 8] (.int 7) 2 rfl rfl

/-- C2: descending with key/value names into the Dict parsed from the seed
binds k to "a" and v to 1 in a copy-on-write clone of the scope (the parent
frame's scope is untouched) and makes the value Null — all confirmed below —
but the subsequent ascend does NOT succeed: because a dict descend always
records Some entry variables, shift-left hits the todo!() at
src/interpreter.rs line 145 and panics instead of producing the pair-list
List. -/
theorem dict_descend_binds_then_ascend_panics :
    ∃ i1 i2,
      run 10 (Interpreter.new "\x7b\"a\":1,\"b\":2\x7d")
        (.expression (.functionCall "json" [])) = .ok i1 ∧
      i1.value = .dict [("a", .int 1), ("b", .int 2)] none ∧
      run 10 i1 (.shiftRight (some ("k", "v"))) = .ok i2 ∧
      i2.value = .null ∧
      scopeGet i2.scope "k" = some (.string "a") ∧
      scopeGet i2.scope "v" = some (.int 1) ∧
      scopeGet i1.scope "k" = none ∧
      run 10 i2 (.shiftLeft none) = .panic "not yet implemented" :=
  ⟨_, _, rfl, rfl, rfl, rfl, rfl, rfl, rfl, rfl⟩

/-- C3: the Dict length-based realize does NOT pull exactly enough.
Answering get_first (which needs one pair) on a pending-only Dict pulls BOTH
available pairs, because Dict::realize_n(n) computes
(n + 1).saturating_sub(len) — contradicting its own doc comment "Expand to
size n".  For contrast, the List side is exact: List::get 0 pulls exactly
one element and leaves the second pending. -/
theorem dict_realize_n_overpull :
    LDict.get_first (⟨[], some [.ok ("a", 1), .ok ("b", 2)]⟩ : LDict Nat) =
      (⟨[("a", 1), ("b", 2)], some []⟩, .ok (some ("a", 1))) ∧
    LList.get (⟨[], some [.ok 1, .ok 2]⟩ : LList Nat) 0 =
      (⟨[1], some [.ok 2]⟩, .ok (some 1)) :=
  ⟨rfl, rfl⟩

/-- C4: pending pairs are not consulted or are lost on Dict key lookup.
First: the get builtin with a String key reads only the realized prefix, so
a key that is still pending yields Null.  Second: Dict::get (via
realize_look_for) does pull one pair at a time and stops at the sought key,
but the take()n generator is dropped on that early return, so the pair
("b", 2) still pending is lost and a later lookup of "b" reports it absent
without any drain having produced it. -/
theorem dict_pending_lookup_lost :
    builtinGet [.dict [] (some [.ok ("a", .int 1)]), .string "a"] = .ok .null ∧
    LDict.get (⟨[], some [.ok ("a", 1), .ok ("b", 2)]⟩ : LDict Nat) "a" =
      (⟨[("a", 1)], none⟩, .ok (some 1)) ∧
    LDict.get (⟨[("a", 1)], none⟩ : LDict Nat) "b" = (⟨[("a", 1)], none⟩, .ok none) :=
  ⟨rfl, rfl, rfl⟩

/-- C5: a command whose execution returns an error leaves the interpreter
exactly as it was — the failed command is never recorded, so value and
scope afterwards are those from before and the interpreter stays usable.
Concretely, descending into the empty List fails with the empty-sequence
error and changes nothing. -/
theorem run_error_keeps_history :
    (∀ (fuel : Nat) (i : Interpreter) (cmd : Command) (i2 : Interpreter) (e : Err),
        run fuel i cmd = .err i2 e →
        i2 = i ∧ i2.value = i.value ∧ i2.scope = i.scope ∧
          i2.program.activeCommands = i.program.activeCommands) ∧
    (run 5 ⟨Program.closed (.list [] none) builtinScope []⟩ (.shiftRight none) =
      .err ⟨Program.closed (.list [] none) builtinScope []⟩ .shiftRightEmptySequence) := by
  constructor
  · intro fuel i cmd i2 e h
    have heq : i2 = i := by
      cases fuel with
      | zero => simp [run] at h
      | succ f =>
        cases cmd with
        | expression ex =>
          simp only [run] at h
          split at h <;> simp_all
        | shiftRight kv =>
          simp only [run] at h
          split at h <;> (try simp_all) <;> (split at h <;> simp_all)
        | shiftLeft lkv =>
          simp only [run] at h
          split at h
          · simp_all
          · split at h <;> (try simp_all) <;>
              (split at h <;> (try simp_all) <;>
                (split at h <;> (try simp_all) <;> (split at h <;> simp_all)))
    exact ⟨heq, by rw [heq], by rw [heq], by rw [heq]⟩
  · rfl

/-- Witness for C5: the general conjunct applied to the failing
empty-List descend. -/
theorem run_error_keeps_history_witness :
    (⟨Program.closed (.list [] none) builtinScope []⟩ : Interpreter) =
        ⟨Program.closed (.list [] none) builtinScope []⟩ ∧
      Interpreter.value ⟨Program.closed (.list [] none) builtinScope []⟩ =
        Interpreter.value ⟨Program.closed (.list [] none) builtinScope []⟩ ∧
      Interpreter.scope ⟨Program.closed (.list [] none) builtinScope []⟩ =
        Interpreter.scope ⟨Program.closed (.list [] none) builtinScope []⟩ ∧
      Program.activeCommands (Program.closed (.list [] none) builtinScope []) =
        Program.activeCommands (Program.closed (.list [] none) builtinScope []) :=
  run_error_keeps_history.1 5 ⟨Program.closed (.list [] none) builtinScope []⟩
    (.shiftRight none) ⟨Program.closed (.list [] none) builtinScope []⟩
    .shiftRightEmptySequence (by rfl)

/-- C6: running any single successful Expression command and then undoing
restores the exact prior interpreter state (value and scope included), and
undo with nothing recorded in the active frame is a no-op. -/
theorem run_undo_roundtrip :
    (∀ (fuel : Nat) (i : Interpreter) (e : Expression) (i2 : Interpreter),
        run fuel i (.expression e) = .ok i2 → i2.undo = i) ∧
    (∀ i : Interpreter, i.program.activeCommands = [] → i.undo = i) := by
  constructor
  · intro fuel i e i2 h
    cases fuel with
    | zero => simp [run] at h
    | succ f =>
      simp only [run] at h
      split at h <;> simp_all
      subst h
      simp [Interpreter.undo, Program.pop_push]
  · intro i h
    cases i with
    | mk p =>
      cases p <;> simp_all [Program.activeCommands, Interpreter.undo, Program.pop]

/-- Witness for C6: run the literal 5 on a fresh interpreter, then undo. -/
theorem run_undo_roundtrip_witness :
    Interpreter.undo ⟨Program.closed (.string "w") builtinScope
        [⟨.simple (.expression (.literal (.int 5))), .int 5⟩]⟩ = Interpreter.new "w" :=
  run_undo_roundtrip.1 3 (Interpreter.new "w") (.literal (.int 5))
    ⟨Program.closed (.string "w") builtinScope
      [⟨.simple (.expression (.literal (.int 5))), .int 5⟩]⟩ (by rfl)

/-- C7: executing shift-right on a scalar, or on a List with variable names
supplied, does not produce a recoverable invalid-operation error: it hits
the todo!() at src/interpreter.rs line 114 and panics (an engine abort). -/
theorem shift_right_invalid_panics :
    run 5 ⟨Program.closed (.string "x") builtinScope []⟩ (.shiftRight none) =
      .panic "invalid shift right" ∧
    run 5 ⟨Program.closed (.list [.int 1] none) builtinScope []⟩
      (.shiftRight (some ("a", "b"))) = .panic "invalid shift right" :=
  ⟨rfl, rfl⟩

/-- Counterexample to C8 as stated: a function with accepted arities {1, 2}
called with 1 explicit argument is NOT invoked as [currentValue, arg] — the
exact-arity branch wins and it is invoked as given.  Here the as-given call
reaches the get builtin with a single argument (its arity assert fires),
while the explicitly injected call returns element 0 of the current List;
the two calls are observably different, refuting the claimed injection. -/
theorem arity_injection_cex :
    eval 5 [("get", .function "get" [1, 2])] (.functionCall "get" [.literal (.int 0)])
        (.list [.int 10, .int 20] none) =
      .panic "get function expects exactly two arguments" ∧
    eval 5 [("get", .function "get" [1, 2])]
        (.functionCall "get" [.thisE, .literal (.int 0)])
        (.list [.int 10, .int 20] none) = .ok (.int 10) :=
  ⟨rfl, rfl⟩

/-- C8 (amended): for every function call, if the explicit argument count is
in the accepted-arity set the call is invoked as given, without injection —
exact match takes precedence; only when it is not accepted but count+1 is,
the current value is implicitly prepended (the call then behaves exactly
like the same call with an explicit This argument in front); otherwise the
call fails with the arity error carrying the attempted arity and the
accepted set. -/
theorem arity_dispatch (fuel : Nat) (sc : Scope) (thisv : Value) (name fname : String)
    (arities : List Nat) (args : List Expression)
    (hf : scopeGet sc name = some (.function fname arities)) :
    (args.length ∈ arities →
      eval (fuel + 1) sc (.functionCall name args) thisv =
        match evalArgs fuel sc args thisv with
        | .ok argv => applyFunction fname argv
        | .err e2 => .err e2
        | .panic m => .panic m
        | .fuelOut => .fuelOut) ∧
    (args.length ∉ arities → args.length + 1 ∈ arities →
      eval (fuel + 1) sc (.functionCall name args) thisv =
        eval (fuel + 2) sc (.functionCall name (.thisE :: args)) thisv) ∧
    (args.length ∉ arities → args.length + 1 ∉ arities →
      eval (fuel + 1) sc (.functionCall name args) thisv =
        .err (.invalidArity name args.length arities)) := by
  refine ⟨?_, ?_, ?_⟩
  · intro h1
    simp [eval, hf, h1]
  · intro h1 h2
    cases fuel with
    | zero => simp [eval, hf, h1, h2, evalArgs]
    | succ g =>
      simp only [eval, hf, List.length_cons, evalArgs]
      cases hargs : evalArgs (g + 1) sc args thisv <;> simp [hargs, h1, h2]
  · intro h1 h2
    simp [eval, hf, h1, h2]

/-- Witness for C8: json has arity set {1}; the bare call json (0 explicit
arguments) behaves exactly like json with an explicit This argument. -/
theorem arity_dispatch_witness :
    eval 4 builtinScope (.functionCall "json" []) (.string "7") =
      eval 5 builtinScope (.functionCall "json" [.thisE]) (.string "7") :=
  (arity_dispatch 3 builtinScope (.string "7") "json" "json" [1] [] rfl).2.1
    (by decide) (by decide)

/-- Counterexample to C9 as stated: the second operand of And is returned
without any boolean type check — And(true, 5) evaluates to 5 with no type
error, so it is not the case that every evaluated operand must be
boolean-typed. -/
theorem and_operand_type_cex :
    eval 5 [] (.and (.literal (.bool true)) (.literal (.int 5))) .null = .ok (.int 5) :=
  rfl

/-- C9 (amended): And(x, y) evaluates x; a false x short-circuits to false
for every y (y never evaluated); a true x makes the whole result exactly
the evaluation of y, returned as-is without a boolean check; a non-boolean
x fails with the boolean type error.  Or is symmetric: a true x
short-circuits to true, a false x yields the evaluation of y as-is, a
non-boolean x is a type error.  Only the first operand is type-checked. -/
theorem and_or_short_circuit (sc : Scope) (thisv : Value) (fuel : Nat) (x y : Expression) :
    (eval fuel sc x thisv = .ok (.bool false) →
      eval (fuel + 1) sc (.and x y) thisv = .ok (.bool false)) ∧
    (eval fuel sc x thisv = .ok (.bool true) →
      eval (fuel + 1) sc (.and x y) thisv = eval fuel sc y thisv) ∧
    (∀ v, eval fuel sc x thisv = .ok v → v.as_bool = none →
      eval (fuel + 1) sc (.and x y) thisv = .err (.invalidType "boolean")) ∧
    (eval fuel sc x thisv = .ok (.bool true) →
      eval (fuel + 1) sc (.or x y) thisv = .ok (.bool true)) ∧
    (eval fuel sc x thisv = .ok (.bool false) →
      eval (fuel + 1) sc (.or x y) thisv = eval fuel sc y thisv) ∧
    (∀ v, eval fuel sc x thisv = .ok v → v.as_bool = none →
      eval (fuel + 1) sc (.or x y) thisv = .err (.invalidType "boolean")) := by
  refine ⟨?_, ?_, ?_, ?_, ?_, ?_⟩
  · intro h; simp [eval, h, Value.as_bool]
  · intro h; simp [eval, h, Value.as_bool]
  · intro v h hb; simp [eval, h, hb]
  · intro h; simp [eval, h, Value.as_bool]
  · intro h; simp [eval, h, Value.as_bool]
  · intro v h hb; simp [eval, h, hb]

/-- Witness for C9: And with a false literal first operand short-circuits to
false even though the second operand is a Dict literal whose evaluation
would abort (the dict expression case is unimplemented in the source). -/
theorem and_or_short_circuit_witness :
    eval 6 [] (.and (.literal (.bool false)) (.dict [])) .null = .ok (.bool false) :=
  (and_or_short_circuit [] .null 5 (.literal (.bool false)) (.dict [])).1 rfl

/-- C10: immediately after Interpreter::new(input), the value is the String
wrapping the raw input verbatim (not parsed), the scope is exactly the three
builtin bindings json, get and assoc (with their arity sets), and the status
is empty. -/
theorem new_interpreter_initial_state :
    ∀ s : String,
      (Interpreter.new s).value = .string s ∧
      (Interpreter.new s).status = [] ∧
      (Interpreter.new s).scope = builtinScope ∧
      builtinScope.map Prod.fst = ["json", "get", "assoc"] ∧
      scopeGet builtinScope "json" = some (.function "json" [1]) ∧
      scopeGet builtinScope "get" = some (.function "get" [2]) ∧
      scopeGet builtinScope "assoc" = some (.function "assoc" [3]) := by
  intro s
  exact ⟨rfl, rfl, rfl, rfl, rfl, rfl, rfl⟩
